import Mathlib

/-!
Verification of the Splunk-MCP-Server core against its specification.

The development shallowly embeds the Python sources:
  * `encrypt_password.py`            (provisioning: machine-bound encryption)
  * `src/utils/credential_manager.py` (decryption, machine check)
  * `src/utils/splunk_client.py`      (connection retry, query execution,
                                       index/sourcetype listing)
  * `src/utils/response_formatter.py` (pagination, field summary, cleaning)

External libraries (hashlib / PBKDF2 / Fernet / base64) are modelled as
abstract primitives collected in `CryptoPrims`; the facts the code relies on
(round trips of the cipher and of the base64 transport) appear as explicit
hypotheses of the theorems that need them.  Machine integers do not overflow
in any modelled computation, so `Nat` is used throughout.  Wall-clock time in
the job-polling loop is idealised to advance only at the `time.sleep(0.5)`
call; one tick of the model is half a second, so a `timeout` of `t` seconds
is `2 * t` ticks.
-/

/-- Byte strings (Python `bytes`) as lists of naturals. -/
def Bytes : Type := List Nat

deriving instance DecidableEq for Bytes

instance : Append Bytes := ⟨fun a b => List.append a b⟩

/-- Python `s.encode('utf-8')` idealised as the sequence of code points.
The encoding is injective, which is the only property the code relies on. -/
def strBytes (s : String) : Bytes := s.data.map Char.toNat

/-- Python `b.decode('utf-8')`, the inverse of `strBytes` on its range. -/
def bytesStr (b : Bytes) : String := String.mk (b.map Char.ofNat)

/-- Abstract interface to the external crypto libraries used by
`encrypt_password.py` and `credential_manager.py`: SHA-256 hex digests,
PBKDF2-HMAC-SHA256 key derivation (100000 iterations, length 32 — both
call sites pass the same parameters, so one abstract function models both),
Fernet authenticated encryption, and url-safe base64 transport. -/
structure CryptoPrims where
  sha256hex : Bytes → String
  kdfDerive : Bytes → Bytes → Bytes
  fernetEnc : String → Bytes → Bytes
  fernetDec : String → Bytes → Option Bytes
  b64enc : Bytes → String
  b64dec : String → Option Bytes

/-- Host attributes consumed by `get_machine_id` / `_get_machine_id`:
MAC address (as the `hex(uuid.getnode())` string), username (after the
`USER`/`USERNAME`/`default` fallback chain), home directory, and the
`platform.system()-platform.machine()` string. -/
structure MachineEnv where
  mac : String
  username : String
  home : String
  platformInfo : String

/-- `get_machine_id` (`encrypt_password.py`) and
`CredentialManager._get_machine_id`: SHA-256 hex digest of the concatenated
host attribute bytes. -/
def getMachineId (P : CryptoPrims) (env : MachineEnv) : String :=
  P.sha256hex (strBytes env.mac ++ strBytes env.username ++
    strBytes env.home ++ strBytes env.platformInfo)

/-- The 16-hex-char identity tag: `hashlib.sha256(machine_id.encode()).hexdigest()[:16]`
(computed identically in `encrypt_password.py` and in `CredentialManager.__init__`). -/
def machineHash (P : CryptoPrims) (env : MachineEnv) : String :=
  String.mk ((P.sha256hex (strBytes (getMachineId P env))).data.take 16)

/-- `derive_key` / `CredentialManager._derive_key`: PBKDF2 over the machine id
and salt, then url-safe base64 of the 32-byte key (the form Fernet accepts). -/
def deriveKey (P : CryptoPrims) (machineId : String) (salt : Bytes) : String :=
  P.b64enc (P.kdfDerive (strBytes machineId) salt)

/-- Output of `encrypt_password` in `encrypt_password.py`:
keys `encrypted`, `salt`, `machine_hash`. -/
structure EncryptOutput where
  encrypted : String
  salt : String
  machine_hash : String
deriving DecidableEq

/-- `encrypt_password` (`encrypt_password.py` lines 74-86): fresh `salt` is a
parameter (the model of `os.urandom(16)`); derives the key, Fernet-encrypts
the password bytes, and base64-encodes token and salt for transport. -/
def encrypt_password (P : CryptoPrims) (env : MachineEnv) (salt : Bytes)
    (password : String) : EncryptOutput :=
  let machineId := getMachineId P env
  let key := deriveKey P machineId salt
  { encrypted := P.b64enc (P.fernetEnc key (strBytes password))
    salt := P.b64enc salt
    machine_hash := String.mk ((P.sha256hex (strBytes machineId)).data.take 16) }

/-- The configuration fragment consumed by `CredentialManager.decrypt_password`:
keys `password_encrypted`, `password_salt`, `machine_hash`. -/
structure EncryptedData where
  password_encrypted : String
  password_salt : String
  machine_hash : String
deriving DecidableEq

/-- The operator pastes the printed YAML fragment into the configuration:
`password_encrypted := encrypted`, `password_salt := salt`, `machine_hash`
verbatim (`encrypt_password.py` lines 166-169). -/
def configOf (o : EncryptOutput) : EncryptedData :=
  { password_encrypted := o.encrypted
    password_salt := o.salt
    machine_hash := o.machine_hash }

/-- The distinct `ValueError`s raised by `CredentialManager.decrypt_password`. -/
inductive CredError where
  | machineMismatch
  | invalidToken
  | genericFailure
deriving DecidableEq

/-- `CredentialManager.decrypt_password` (lines 73-119), instrumented: the
second component counts cryptographic operations performed (key derivation
and Fernet decryption).  The machine check comes first; on mismatch the
function raises before touching salt, key or ciphertext.  A base64 decoding
error is caught by the generic `except Exception` handler; a Fernet
authentication failure (`InvalidToken`) is reported distinctly. -/
def decrypt_passwordT (P : CryptoPrims) (env : MachineEnv) (d : EncryptedData) :
    Except CredError String × Nat :=
  if d.machine_hash ≠ machineHash P env then
    (Except.error CredError.machineMismatch, 0)
  else
    match P.b64dec d.password_salt, P.b64dec d.password_encrypted with
    | some salt, some encrypted =>
      match P.fernetDec (deriveKey P (getMachineId P env) salt) encrypted with
      | some plaintext => (Except.ok (bytesStr plaintext), 2)
      | none => (Except.error CredError.invalidToken, 2)
    | _, _ => (Except.error CredError.genericFailure, 0)

/-- `CredentialManager.decrypt_password`, result only. -/
def decrypt_password (P : CryptoPrims) (env : MachineEnv) (d : EncryptedData) :
    Except CredError String :=
  (decrypt_passwordT P env d).1

/-- Outcome of one connection attempt in `SplunkClient._create_connection`
(the `client.connect` call together with the `service.apps.list()` probe):
either it returns a service, or it raises `HTTPError` with some status,
`socket.timeout`, or any other exception. -/
inductive AttemptOutcome where
  | success
  | httpError (status : Nat)
  | sockTimeout
  | otherExc
deriving DecidableEq

/-- An outcome the retry loop treats as transient (retried): everything
except success and except an HTTP 401 authentication rejection. -/
def isTransient : AttemptOutcome → Bool
  | AttemptOutcome.success => false
  | AttemptOutcome.httpError status => status != 401
  | AttemptOutcome.sockTimeout => true
  | AttemptOutcome.otherExc => true

/-- Result of `_create_connection`: the service (identified by the attempt
index that produced it), the terminal `ConnectionError` for a 401, or the
final `ConnectionError` wrapping the last error after all retries. -/
inductive ConnResult where
  | ok (attempt : Nat)
  | authFailed
  | allRetriesFailed (retries : Nat) (lastError : Option AttemptOutcome)
deriving DecidableEq

/-- Observable trace of one `_create_connection` call: its result, the number
of connection attempts made, and the total seconds of backoff slept. -/
structure ConnTrace where
  result : ConnResult
  attempts : Nat
  slept : Nat
deriving DecidableEq

/-- The `for attempt in range(retry_count)` loop of `_create_connection`
(`splunk_client.py` lines 91-131).  `remaining` counts loop iterations left
(`attempt + remaining = retryCount` at every call).  On a transient failure
the loop records the error and, if this was not the final attempt
(`attempt < retry_count - 1`), sleeps `2 ** attempt` seconds.  An HTTP 401
raises `ConnectionError` out of the whole function at once. -/
def connLoop (outcomes : Nat → AttemptOutcome) (retryCount : Nat) :
    Nat → Nat → Option AttemptOutcome → Nat → Nat → ConnTrace
  | _, 0, lastError, made, slept =>
    ⟨ConnResult.allRetriesFailed retryCount lastError, made, slept⟩
  | attempt, remaining + 1, _, made, slept =>
    match outcomes attempt with
    | AttemptOutcome.success => ⟨ConnResult.ok attempt, made + 1, slept⟩
    | AttemptOutcome.httpError status =>
      if status = 401 then ⟨ConnResult.authFailed, made + 1, slept⟩
      else
        connLoop outcomes retryCount (attempt + 1) remaining
          (some (AttemptOutcome.httpError status)) (made + 1)
          (if attempt < retryCount - 1 then slept + 2 ^ attempt else slept)
    | AttemptOutcome.sockTimeout =>
        connLoop outcomes retryCount (attempt + 1) remaining
          (some AttemptOutcome.sockTimeout) (made + 1)
          (if attempt < retryCount - 1 then slept + 2 ^ attempt else slept)
    | AttemptOutcome.otherExc =>
        connLoop outcomes retryCount (attempt + 1) remaining
          (some AttemptOutcome.otherExc) (made + 1)
          (if attempt < retryCount - 1 then slept + 2 ^ attempt else slept)

/-- `SplunkClient._create_connection` with the given per-attempt outcomes
(default `retry_count` in the source is 3). -/
def createConnection (outcomes : Nat → AttemptOutcome) (retryCount : Nat) :
    ConnTrace :=
  connLoop outcomes retryCount 0 retryCount none 0 0

/-- A field value inside a result record, as produced by `json.loads` on the
Splunk results payload: a JSON string or a JSON integer (the two shapes the
claims exercise; Python compares and stringifies them with `==` and `str`). -/
inductive Value where
  | str (s : String)
  | int (n : Int)
deriving DecidableEq

/-- A result record: a Python dict in insertion order. -/
abbrev Record : Type := List (String × Value)

/-- Job statistics read from the Job after completion (`splunk_client.py`
lines 253-258).  `runDuration` is a payload the claims never inspect; the
source's float is modelled as a natural number. -/
structure QStats where
  scanCount : Nat
  eventCount : Nat
  resultCount : Nat
  runDuration : Nat
deriving DecidableEq

/-- An exception raised by a Splunk SDK operation: `HTTPError` with a status,
or any other exception with its message. -/
inductive SplunkExc where
  | http (status : Nat) (msg : String)
  | general (msg : String)
deriving DecidableEq

/-- The parsed JSON of `job.results(...)`, with the `.get(..., [])` defaults
of `splunk_client.py` lines 282-284 already applied. -/
structure ResultsData where
  results : List Record
  fields : List String
  messages : List String
deriving DecidableEq

/-- Behaviour of the server-side Job during one `execute_query` call:
the value of `job.is_done()` at the k-th poll, and the outcomes of reading
the job statistics and of fetching/parsing the results (each of which may
raise). -/
structure JobBehavior where
  isDone : Nat → Bool
  stats : Except SplunkExc QStats
  fetchResults : Except SplunkExc ResultsData

/-- The dictionary returned by `SplunkClient.execute_query`: either the
success shape (lines 274-285) or one of the error shapes (lines 287-310).
Keys absent in the source dict are `none` / `[]` (matching the formatter's
`.get` defaults). -/
structure Envelope where
  status : String
  query : String
  time_range : Option (String × String)
  statistics : Option QStats
  results : List Record
  fields : List String
  messages : List String
  error : Option String
  error_type : Option String
deriving DecidableEq

/-- An error return of `execute_query`: status, query, error text and
classification; no results / statistics keys. -/
def errorEnvelope (query err etype : String) : Envelope :=
  { status := "error", query := query, time_range := none, statistics := none
    results := [], fields := [], messages := [], error := some err
    error_type := some etype }

/-- Classification of a raised exception by the `except` clauses of
`execute_query`: `HTTPError` → `http_error`, anything else →
`general_error`. -/
def excEnvelope (query : String) : SplunkExc → Envelope
  | SplunkExc.http status msg =>
      errorEnvelope query ("HTTP Error " ++ toString status ++ ": " ++ msg)
        "http_error"
  | SplunkExc.general msg => errorEnvelope query msg "general_error"

/-- One round of the `while not job.is_done()` loop (`splunk_client.py`
lines 245-250), in half-second ticks: check `is_done` at poll `i`; if not
done and the elapsed `i` ticks exceed `timeoutTicks`, cancel and time out;
otherwise sleep one tick.  `fuel` bounds the recursion; `pollLoop` supplies
enough fuel that it never runs out before the timeout check fires. -/
def pollGo (isDone : Nat → Bool) (timeoutTicks : Nat) : Nat → Nat → Except Unit Nat
  | 0, _ => Except.error ()
  | fuel + 1, i =>
    if isDone i then Except.ok i
    else if i > timeoutTicks then Except.error ()
    else pollGo isDone timeoutTicks fuel (i + 1)

/-- The polling loop: `Except.ok i` when the job reported done at poll `i`,
`Except.error ()` when the deadline passed first. -/
def pollLoop (isDone : Nat → Bool) (timeoutTicks : Nat) : Except Unit Nat :=
  pollGo isDone timeoutTicks (timeoutTicks + 2) 0

/-- `SplunkClient.execute_query` from the point where the Job exists
(`splunk_client.py` lines 242-310), instrumented: the second component
counts `job.cancel()` calls.  Timeout path: cancel, then raise
`TimeoutError`, caught and classified `timeout`.  An exception while reading
statistics or fetching results is caught by the `except HTTPError` /
`except Exception` handlers directly — there is no `finally`, so no cancel
happens on those paths.  The success path cancels once (line 272). -/
def executeQueryCore (jb : JobBehavior) (query : String)
    (timeRange : String × String) (timeout : Nat) : Envelope × Nat :=
  match pollLoop jb.isDone (2 * timeout) with
  | Except.error _ =>
    (errorEnvelope query
      ("Query execution exceeded timeout of " ++ toString timeout ++ " seconds")
      "timeout", 1)
  | Except.ok _ =>
    match jb.stats with
    | Except.error e => (excEnvelope query e, 0)
    | Except.ok st =>
      match jb.fetchResults with
      | Except.error e => (excEnvelope query e, 0)
      | Except.ok rd =>
        ({ status := "success", query := query, time_range := some timeRange
           statistics := some st, results := rd.results, fields := rd.fields
           messages := rd.messages, error := none, error_type := none }, 1)

/-- `SplunkClient.execute_query` including the part before the Job exists:
`pre` is the outcome of `get_connection` / reading settings /
`service.jobs.create` — an exception there is caught by the same handlers
and no Job was ever created (cancel count 0). -/
def executeQuery (pre : Except SplunkExc Unit) (jb : JobBehavior)
    (query : String) (timeRange : String × String) (timeout : Nat) :
    Envelope × Nat :=
  match pre with
  | Except.error e => (excEnvelope query e, 0)
  | Except.ok _ => executeQueryCore jb query timeRange timeout

/-- Python `str(value)`. -/
def pyStr : Value → String
  | Value.str s => s
  | Value.int n => toString n

/-- Python truthiness of a field value: the empty string and zero are falsy
(the filter in `get_sourcetypes`, `splunk_client.py` line 356). -/
def pyTruthy : Value → Bool
  | Value.str s => s != ""
  | Value.int n => n != 0

/-- Python `value in sample_values` where `sample_values` holds stringified
samples (`response_formatter.py` line 176): string values compare by
equality; an `int` never equals a `str` in Python, so the test is false. -/
def pyMemStr (v : Value) (l : List String) : Bool :=
  match v with
  | Value.str s => decide (s ∈ l)
  | Value.int _ => false

/-- Python dict lookup `d.get(k)` on an insertion-ordered dict. -/
def assocGet {β : Type} : List (String × β) → String → Option β
  | [], _ => none
  | (k', v) :: rest, k => if k' = k then some v else assocGet rest k

/-- Python dict assignment `d[k] = v`: update in place if the key exists,
else append in insertion order. -/
def assocSet {β : Type} : List (String × β) → String → β → List (String × β)
  | [], k, v => [(k, v)]
  | (k', v') :: rest, k, v =>
    if k' = k then (k, v) :: rest else (k', v') :: assocSet rest k v

/-- `collections.Counter` update `c[k] += 1`: bump in place, or insert with
count 1 at the end (insertion order). -/
def counterIncr (c : List (String × Nat)) (k : String) : List (String × Nat) :=
  match assocGet c k with
  | some n => assocSet c k (n + 1)
  | none => c ++ [(k, 1)]

/-- Stable insertion into a list sorted descending by count: the new element
goes after all existing elements with a count ≥ its own. -/
def insertDesc (x : String × Nat) : List (String × Nat) → List (String × Nat)
  | [] => [x]
  | y :: ys => if y.2 < x.2 then x :: y :: ys else y :: insertDesc x ys

/-- Stable descending-by-count sort (insertion sort), the order produced by
`Counter.most_common`: counts descending, ties in first-insertion order. -/
def sortByCountDesc (c : List (String × Nat)) : List (String × Nat) :=
  c.foldl (fun acc x => insertDesc x acc) []

/-- `Counter.most_common(n)`. -/
def mostCommon (n : Nat) (c : List (String × Nat)) : List (String × Nat) :=
  (sortByCountDesc c).take n

/-- Python `field.startswith('_')`: the internal-field marker. -/
def isInternalField (f : String) : Bool :=
  match f.data with
  | [] => false
  | c :: _ => c = '_'

/-- The per-field accumulator of `_generate_field_summary`
(`response_formatter.py` lines 170-173): running sample list and `Counter`. -/
structure FieldAcc where
  sample_values : List String
  value_count : List (String × Nat)
deriving DecidableEq

/-- The freshly initialised accumulator (line 170). -/
def emptyFieldAcc : FieldAcc := ⟨[], []⟩

/-- The body of the inner loop of `_generate_field_summary` for one value of
one field (lines 175-181): append `str(value)` to the samples when `value`
is not in the (stringified) samples and fewer than 5 are collected; always
count `str(value)`. -/
def fieldStep (d : FieldAcc) (v : Value) : FieldAcc :=
  { sample_values :=
      if pyMemStr v d.sample_values = false ∧ d.sample_values.length < 5 then
        d.sample_values ++ [pyStr v]
      else d.sample_values
    value_count := counterIncr d.value_count (pyStr v) }

/-- One iteration of `for field, value in result.items()` over the running
summary dict (lines 165-181): internal fields are skipped; a missing entry
is initialised and then updated (fused here into one update-or-append). -/
def summaryStep (fs : List (String × FieldAcc)) (p : String × Value) :
    List (String × FieldAcc) :=
  if isInternalField p.1 then fs
  else
    match assocGet fs p.1 with
    | some d => assocSet fs p.1 (fieldStep d p.2)
    | none => fs ++ [(p.1, fieldStep emptyFieldAcc p.2)]

/-- The formatted per-field summary entry (lines 184-191). -/
structure FieldEntry where
  sample_values : List String
  unique_count : Nat
  top_values : List (String × Nat)
deriving DecidableEq

/-- Formatting one accumulator (lines 185-191): samples, number of distinct
stringified values, and `most_common(5)`. -/
def finalizeEntry (d : FieldAcc) : FieldEntry :=
  { sample_values := d.sample_values
    unique_count := d.value_count.length
    top_values := mostCommon 5 d.value_count }

/-- `ResponseFormatter._generate_field_summary` (lines 156-193): empty input
gives an empty summary; otherwise the first `min(100, len(results))` records
are folded through `summaryStep` and each entry is formatted. -/
def generateFieldSummary (results : List Record) : List (String × FieldEntry) :=
  if results.isEmpty then []
  else
    ((results.take (min 100 results.length)).foldl
      (fun fs r => r.foldl summaryStep fs) []).map
      (fun p => (p.1, finalizeEntry p.2))

/-- Claim-side reference: the values carried by non-internal items with key
`f`, in traversal order, over a flat list of dict items. -/
def pairStream (f : String) (ps : List (String × Value)) : List Value :=
  (ps.filter (fun p => !(isInternalField p.1) && (p.1 == f))).map (fun p => p.2)

/-- Claim-side reference stream for one field over the sampled records. -/
def fieldValueStream (f : String) (results : List Record) : List Value :=
  pairStream f ((results.take (min 100 results.length)).flatMap (fun r => r))

/-- Whether a value is a JSON string. -/
def isStrValue : Value → Bool
  | Value.str _ => true
  | Value.int _ => false

/-- Proof-side device: folding a stream of values into an optional per-field
accumulator.  `none` means the field never appeared (no dict entry);
otherwise the accumulator folded through `fieldStep`. -/
def applyAll (dOpt : Option FieldAcc) (vs : List Value) : Option FieldAcc :=
  match vs with
  | [] => dOpt
  | v :: rest => some ((v :: rest).foldl fieldStep (dOpt.getD emptyFieldAcc))

/-- Claim-side reference: distinct values in first-seen order (the spec's
wording for `sample_values`). -/
def firstSeenDistinct (l : List String) : List String :=
  l.foldl (fun acc s => if s ∈ acc then acc else acc ++ [s]) []

/-- `ResponseFormatter._calculate_pagination` (lines 145-154): Python
`(total + ps - 1) // ps` on non-negative operands is `Nat` division. -/
structure PaginationInfo where
  total_results : Nat
  page_size : Nat
  total_pages : Nat
  requires_pagination : Bool
deriving DecidableEq

/-- Pagination computation of lines 147-154. -/
def calculatePagination (total ps : Nat) : PaginationInfo :=
  { total_results := total
    page_size := ps
    total_pages := (total + ps - 1) / ps
    requires_pagination := decide ((total + ps - 1) / ps > 1) }

/-- The fixed priority field list of `_clean_results` (line 244). -/
def priorityFields : List String :=
  ["_time", "host", "source", "sourcetype", "message", "_raw"]

/-- `_clean_results` body for one record (lines 240-261): priority fields
first, then remaining non-internal fields, and, only when neither `_raw` nor
`message` made it in, the other internal fields except `_time` and `_raw`. -/
def cleanRecord (r : Record) : Record :=
  let cr := priorityFields.foldl (fun acc f =>
    match assocGet r f with
    | some v => assocSet acc f v
    | none => acc) []
  let cr := r.foldl (fun acc p =>
    if isInternalField p.1 = false ∧ (assocGet acc p.1).isNone then
      assocSet acc p.1 p.2
    else acc) cr
  if (assocGet cr "_raw").isNone ∧ (assocGet cr "message").isNone then
    r.foldl (fun acc p =>
      if isInternalField p.1 = true ∧ p.1 ≠ "_time" ∧ p.1 ≠ "_raw" then
        assocSet acc p.1 p.2
      else acc) cr
  else cr

/-- `ResponseFormatter._clean_results`. -/
def cleanResults (results : List Record) : List Record :=
  results.map cleanRecord

/-- `_get_troubleshooting_tips` (lines 265-288): three fixed hint lists;
`tips.get(error_type, tips['general_error'])` falls back to the general
hints for any other classification. -/
def troubleshootingTips (etype : String) : List String :=
  if etype = "timeout" then
    ["Query took too long to execute", "Try reducing the time range",
     "Add more specific filters to reduce data volume",
     "Consider using summary indexes for large datasets"]
  else if etype = "http_error" then
    ["Check your network connectivity", "Verify Splunk server is accessible",
     "Ensure credentials are correct",
     "Check if your account has necessary permissions"]
  else
    ["Verify query syntax is correct", "Check if specified indexes exist",
     "Ensure you have permissions for the requested data",
     "Try a simpler query to test connectivity"]

/-- The error report of `_format_error_response` (lines 129-143). -/
structure ErrorReport where
  query : String
  error_message : String
  error_type : String
  troubleshooting : List String
deriving DecidableEq

/-- The `pagination_guidance` block (lines 117-121). -/
structure PaginationGuidance where
  total_pages : Nat
  results_per_page : Nat
  suggestion : String
deriving DecidableEq

/-- The success report of `format_query_response` (lines 86-127).  The
`event_summary` block and the float-formatted `execution_time` string are
presentation payload not referenced by any claim and are not modelled. -/
structure SuccessReport where
  query : String
  time_range : Option (String × String)
  total_events : Nat
  total_results : Nat
  scan_count : Nat
  pagination : PaginationInfo
  field_summary : List (String × FieldEntry)
  results : Option (List Record)
  results_preview : Option (List Record)
  message : String
  pagination_guidance : Option PaginationGuidance
  splunk_messages : List String
deriving DecidableEq

/-- The success branch of `format_query_response` (lines 72-127):
`total_results` is the length of the envelope's result list; when it fits in
one page the cleaned results are embedded only if `include_raw` is true;
otherwise a preview of the first 100 cleaned records plus pagination
guidance is attached. -/
def formatQuerySuccess (qd : Envelope) (include_raw : Bool) (page_size : Nat) :
    SuccessReport :=
  let results := qd.results
  let total_results := results.length
  let stats := qd.statistics.getD ⟨0, 0, 0, 0⟩
  let pagination := calculatePagination total_results page_size
  let field_summary := generateFieldSummary results
  if total_results ≤ page_size then
    { query := qd.query, time_range := qd.time_range
      total_events := stats.eventCount, total_results := total_results
      scan_count := stats.scanCount
      pagination := pagination, field_summary := field_summary
      results := if include_raw then some (cleanResults results) else none
      results_preview := none
      message := "Query completed with " ++ toString total_results ++ " results"
      pagination_guidance := none
      splunk_messages := qd.messages }
  else
    { query := qd.query, time_range := qd.time_range
      total_events := stats.eventCount, total_results := total_results
      scan_count := stats.scanCount
      pagination := pagination, field_summary := field_summary
      results := none
      results_preview := some (cleanResults (results.take 100))
      message := "Query returned " ++ toString total_results ++
        " results (exceeds page size of " ++ toString page_size ++
        "). Showing preview of first 100 results. " ++
        "Use pagination or refine your query for complete results."
      pagination_guidance := some
        ⟨pagination.total_pages, page_size,
          "Consider adding filters or time constraints to reduce result set"⟩
      splunk_messages := qd.messages }

/-- The two shapes `format_query_response` can return. -/
inductive FormattedResponse where
  | err (e : ErrorReport)
  | ok (r : SuccessReport)
deriving DecidableEq

/-- `ResponseFormatter.format_query_response` (lines 52-127): error envelopes
go to `_format_error_response`; everything else is formatted as success. -/
def formatQueryResponse (qd : Envelope) (include_raw : Bool)
    (page_size : Nat) : FormattedResponse :=
  if qd.status = "error" then
    FormattedResponse.err
      { query := qd.query
        error_message := qd.error.getD "Unknown error"
        error_type := qd.error_type.getD "general_error"
        troubleshooting := troubleshootingTips (qd.error_type.getD "") }
  else FormattedResponse.ok (formatQuerySuccess qd include_raw page_size)

/-- `SplunkClient.get_indexes` (lines 312-325): `get_connection` and the
index listing may each raise; every exception is caught and the empty list
returned. -/
def getIndexes (conn : Except SplunkExc Unit)
    (indexesList : Except SplunkExc (List String)) : List String :=
  match conn with
  | Except.error _ => []
  | Except.ok _ =>
    match indexesList with
    | Except.error _ => []
    | Except.ok l => l

/-- The metadata query built by `get_sourcetypes` (lines 341-344). -/
def sourcetypesQuery (index : Option String) : String :=
  match index with
  | some i => "| metadata type=sourcetypes index=" ++ i
  | none => "| metadata type=sourcetypes"

/-- `SplunkClient.get_sourcetypes` (lines 327-362): on any exception or any
non-success envelope from `execute_query` the empty list is returned; on
success the `sourcetype` field of each record (default `''`) is collected
and falsy values are filtered out. -/
def getSourcetypes (conn : Except SplunkExc Unit) (jb : JobBehavior)
    (timeout : Nat) (index : Option String) : List Value :=
  match conn with
  | Except.error _ => []
  | Except.ok _ =>
    let result := (executeQuery conn jb (sourcetypesQuery index)
      ("-7d", "now") timeout).1
    if result.status = "success" then
      (result.results.map
        (fun r => (assocGet r "sourcetype").getD (Value.str ""))).filter pyTruthy
    else []

theorem bytesStr_strBytes (s : String) : bytesStr (strBytes s) = s := by
  unfold bytesStr strBytes
  rw [List.map_map]
  have : (Char.ofNat ∘ Char.toNat) = id := by
    funext c; simp [Function.comp, Char.ofNat_toNat]
  rw [this, List.map_id]

/-- C1: decrypting on the same host the output of `encrypt_password` returns
the original secret.  The base64 and Fernet round-trip facts the code relies
on from the external `cryptography` library are hypotheses, stated exactly at
the inputs used. -/
theorem encrypt_decrypt_roundtrip (P : CryptoPrims) (env : MachineEnv)
    (salt : Bytes) (password : String)
    (hsalt : P.b64dec (P.b64enc salt) = some salt)
    (htok : P.b64dec (P.b64enc (P.fernetEnc (deriveKey P (getMachineId P env) salt)
      (strBytes password))) =
      some (P.fernetEnc (deriveKey P (getMachineId P env) salt) (strBytes password)))
    (hdec : P.fernetDec (deriveKey P (getMachineId P env) salt)
      (P.fernetEnc (deriveKey P (getMachineId P env) salt) (strBytes password)) =
      some (strBytes password)) :
    decrypt_password P env (configOf (encrypt_password P env salt password)) =
      Except.ok password := by
  have hm : (configOf (encrypt_password P env salt password)).machine_hash =
      machineHash P env := rfl
  have hs : (configOf (encrypt_password P env salt password)).password_salt =
      P.b64enc salt := rfl
  have he : (configOf (encrypt_password P env salt password)).password_encrypted =
      P.b64enc (P.fernetEnc (deriveKey P (getMachineId P env) salt)
        (strBytes password)) := rfl
  unfold decrypt_password decrypt_passwordT
  rw [if_neg (not_not_intro hm), hs, he, hsalt, htok]
  simp only [hdec, bytesStr_strBytes]

set_option maxRecDepth 4000 in
/-- Witness for C1: a concrete instantiation of the primitives satisfying the
round-trip hypotheses, with a concrete host, salt and secret. -/
theorem encrypt_decrypt_roundtrip_witness :
    decrypt_password
      { sha256hex := fun b => String.mk (b.map Char.ofNat)
        kdfDerive := fun a b => a ++ b
        fernetEnc := fun _ m => m
        fernetDec := fun _ m => some m
        b64enc := fun b => String.mk (b.map Char.ofNat)
        b64dec := fun s => some (s.data.map Char.toNat) }
      { mac := "0xab", username := "u", home := "/h", platformInfo := "L-x" }
      (configOf (encrypt_password
        { sha256hex := fun b => String.mk (b.map Char.ofNat)
          kdfDerive := fun a b => a ++ b
          fernetEnc := fun _ m => m
          fernetDec := fun _ m => some m
          b64enc := fun b => String.mk (b.map Char.ofNat)
          b64dec := fun s => some (s.data.map Char.toNat) }
        { mac := "0xab", username := "u", home := "/h", platformInfo := "L-x" }
        [1, 2, 3, 4] "hunter2")) = Except.ok "hunter2" :=
  encrypt_decrypt_roundtrip _ _ _ _ (by decide) (by decide) (by decide)

/-- C2: when the stored `machine_hash` differs from the current host's tag,
`decrypt_password` fails with the different-machine error and performs zero
cryptographic operations (no key derivation, no decryption). -/
theorem decrypt_mismatch_fails_without_crypto (P : CryptoPrims)
    (env : MachineEnv) (d : EncryptedData)
    (h : d.machine_hash ≠ machineHash P env) :
    decrypt_passwordT P env d = (Except.error CredError.machineMismatch, 0) := by
  unfold decrypt_passwordT
  rw [if_pos h]

set_option maxRecDepth 4000 in
/-- Witness for C2: a concrete mismatching tag. -/
theorem decrypt_mismatch_fails_without_crypto_witness :
    decrypt_passwordT
      { sha256hex := fun b => String.mk (b.map Char.ofNat)
        kdfDerive := fun a b => a ++ b
        fernetEnc := fun _ m => m
        fernetDec := fun _ m => some m
        b64enc := fun b => String.mk (b.map Char.ofNat)
        b64dec := fun s => some (s.data.map Char.toNat) }
      { mac := "0xab", username := "u", home := "/h", platformInfo := "L-x" }
      { password_encrypted := "xyz", password_salt := "abc",
        machine_hash := "0000000000000000" } =
      (Except.error CredError.machineMismatch, 0) :=
  decrypt_mismatch_fails_without_crypto _ _ _ (by decide)

theorem geomSumList (n : Nat) :
    ((List.range n).map (fun k => 2 ^ k)).sum = 2 ^ n - 1 := by
  induction n with
  | zero => simp
  | succ n ih =>
    rw [List.range_succ, List.map_append, List.sum_append, ih]
    have h1 : 1 ≤ 2 ^ n := Nat.one_le_two_pow
    have h2 : 2 ^ (n + 1) = 2 ^ n * 2 := pow_succ 2 n
    simp only [List.map_cons, List.map_nil, List.sum_cons, List.sum_nil]
    omega

theorem twoPow_sub_step (a N : Nat) (h : a + 1 ≤ N) :
    2 ^ a + (2 ^ N - 2 ^ (a + 1)) = 2 ^ N - 2 ^ a := by
  have h1 : 2 ^ (a + 1) ≤ 2 ^ N := Nat.pow_le_pow_right (by norm_num) h
  have h2 : 2 ^ (a + 1) = 2 ^ a * 2 := pow_succ 2 a
  omega

theorem connLoop_succeeds (outcomes : Nat → AttemptOutcome) (N rc : Nat)
    (hfail : ∀ i, i < N → isTransient (outcomes i) = true)
    (hsucc : outcomes N = AttemptOutcome.success) :
    ∀ remaining a lastError made slept, a + remaining = rc → a ≤ N → N < rc →
      connLoop outcomes rc a remaining lastError made slept =
        ⟨ConnResult.ok N, made + (N - a) + 1, slept + (2 ^ N - 2 ^ a)⟩ := by
  intro remaining
  induction remaining with
  | zero =>
    intro a lastError made slept hsum ha hN
    exfalso; omega
  | succ r ih =>
    intro a lastError made slept hsum ha hN
    by_cases haN : a = N
    · subst haN
      unfold connLoop
      rw [hsucc]
      simp [Nat.sub_self]
    · have haN' : a < N := by omega
      have ht := hfail a haN'
      have harc : a < rc - 1 := by omega
      unfold connLoop
      cases h : outcomes a with
      | success => rw [h] at ht; simp [isTransient] at ht
      | httpError status =>
        rw [h] at ht
        have hs : ¬ status = 401 := by simpa [isTransient] using ht
        simp only [if_neg hs, if_pos harc]
        rw [ih (a + 1) _ (made + 1) (slept + 2 ^ a) (by omega) (by omega) hN]
        have := twoPow_sub_step a N (by omega)
        simp only [ConnTrace.mk.injEq, true_and]
        omega
      | sockTimeout =>
        simp only [if_pos harc]
        rw [ih (a + 1) _ (made + 1) (slept + 2 ^ a) (by omega) (by omega) hN]
        have := twoPow_sub_step a N (by omega)
        simp only [ConnTrace.mk.injEq, true_and]
        omega
      | otherExc =>
        simp only [if_pos harc]
        rw [ih (a + 1) _ (made + 1) (slept + 2 ^ a) (by omega) (by omega) hN]
        have := twoPow_sub_step a N (by omega)
        simp only [ConnTrace.mk.injEq, true_and]
        omega

theorem connLoop_fails (outcomes : Nat → AttemptOutcome) (N rc : Nat)
    (hfail : ∀ i, i < N → isTransient (outcomes i) = true)
    (hrcN : rc ≤ N) :
    ∀ remaining a lastError made slept, a + remaining = rc →
      ∃ le, connLoop outcomes rc a remaining lastError made slept =
        ⟨ConnResult.allRetriesFailed rc le, made + remaining,
          slept + (2 ^ (rc - 1) - 2 ^ a)⟩ := by
  intro remaining
  induction remaining with
  | zero =>
    intro a lastError made slept hsum
    refine ⟨lastError, ?_⟩
    have h1 : 2 ^ (rc - 1) ≤ 2 ^ a := Nat.pow_le_pow_right (by norm_num) (by omega)
    unfold connLoop
    simp only [ConnTrace.mk.injEq, true_and]
    omega
  | succ r ih =>
    intro a lastError made slept hsum
    have haN : a < N := by omega
    have ht := hfail a haN
    have key : ∀ le', ∃ le, connLoop outcomes rc (a + 1) r le' (made + 1)
        (if a < rc - 1 then slept + 2 ^ a else slept) =
        ⟨ConnResult.allRetriesFailed rc le, made + (r + 1),
          slept + (2 ^ (rc - 1) - 2 ^ a)⟩ := by
      intro le'
      obtain ⟨le, hle⟩ := ih (a + 1) le' (made + 1)
        (if a < rc - 1 then slept + 2 ^ a else slept) (by omega)
      refine ⟨le, ?_⟩
      rw [hle]
      by_cases hc : a < rc - 1
      · rw [if_pos hc] at *
        have := twoPow_sub_step a (rc - 1) (by omega)
        simp only [ConnTrace.mk.injEq, true_and]
        omega
      · have ha' : a = rc - 1 := by omega
        rw [if_neg hc]
        have h1 : 2 ^ (rc - 1) ≤ 2 ^ (a + 1) :=
          Nat.pow_le_pow_right (by norm_num) (by omega)
        simp only [ConnTrace.mk.injEq, true_and]
        subst ha'
        omega
    unfold connLoop
    cases h : outcomes a with
    | success => rw [h] at ht; simp [isTransient] at ht
    | httpError status =>
      rw [h] at ht
      have hs : ¬ status = 401 := by simpa [isTransient] using ht
      simp only [if_neg hs]
      exact key _
    | sockTimeout => exact key _
    | otherExc => exact key _

/-- C5: with N consecutive transient failures followed by a success,
`_create_connection` succeeds iff N < retry_count; the number of attempts
made is `min (N+1) retry_count`, and the total backoff slept is the sum of
`2^k` for `k` from 0 to `attempts - 2` (no sleep after the final attempt). -/
theorem connect_retry_bound (outcomes : Nat → AttemptOutcome) (N rc : Nat)
    (hrc : 0 < rc)
    (hfail : ∀ i, i < N → isTransient (outcomes i) = true)
    (hsucc : outcomes N = AttemptOutcome.success) :
    (createConnection outcomes rc).attempts = min (N + 1) rc ∧
    (createConnection outcomes rc).slept =
      ((List.range ((createConnection outcomes rc).attempts - 1)).map
        (fun k => 2 ^ k)).sum ∧
    ((∃ a, (createConnection outcomes rc).result = ConnResult.ok a) ↔ N < rc) := by
  by_cases hlt : N < rc
  · have h := connLoop_succeeds outcomes N rc hfail hsucc rc 0 none 0 0
      (by omega) (by omega) hlt
    unfold createConnection
    rw [h]
    refine ⟨by simp only []; omega, ?_, ?_⟩
    · show 0 + (2 ^ N - 2 ^ 0) =
        ((List.range (0 + (N - 0) + 1 - 1)).map (fun k => 2 ^ k)).sum
      rw [show 0 + (N - 0) + 1 - 1 = N from by omega, geomSumList]
      norm_num
    · exact ⟨fun _ => hlt, fun _ => ⟨N, rfl⟩⟩
  · have hge : rc ≤ N := by omega
    obtain ⟨le, h⟩ := connLoop_fails outcomes N rc hfail hge rc 0 none 0 0 (by omega)
    unfold createConnection
    rw [h]
    refine ⟨by simp only []; omega, ?_, ?_⟩
    · show 0 + (2 ^ (rc - 1) - 2 ^ 0) =
        ((List.range (0 + rc - 1)).map (fun k => 2 ^ k)).sum
      rw [show 0 + rc - 1 = rc - 1 from by omega, geomSumList]
      norm_num
    · constructor
      · rintro ⟨a, ha⟩
        exact absurd ha (by simp)
      · intro hc; exact absurd hc hlt

/-- Witness for C5: two socket timeouts then success, with `retry_count = 3`:
three attempts, total backoff `2^0 + 2^1 = 3` seconds, success. -/
theorem connect_retry_bound_witness :
    (createConnection
      (fun i => if i < 2 then AttemptOutcome.sockTimeout else AttemptOutcome.success)
      3).attempts = min (2 + 1) 3 ∧
    (createConnection
      (fun i => if i < 2 then AttemptOutcome.sockTimeout else AttemptOutcome.success)
      3).slept =
      ((List.range ((createConnection
        (fun i => if i < 2 then AttemptOutcome.sockTimeout else AttemptOutcome.success)
        3).attempts - 1)).map (fun k => 2 ^ k)).sum ∧
    ((∃ a, (createConnection
      (fun i => if i < 2 then AttemptOutcome.sockTimeout else AttemptOutcome.success)
      3).result = ConnResult.ok a) ↔ 2 < 3) :=
  connect_retry_bound _ 2 3 (by norm_num) (by decide) (by decide)

/-- C6: an HTTP 401 rejection on the first attempt makes `_create_connection`
raise the terminal authentication `ConnectionError` after exactly one attempt,
with no retry and no backoff sleep. -/
theorem connect_auth_no_retry (outcomes : Nat → AttemptOutcome) (rc : Nat)
    (hrc : 0 < rc) (h0 : outcomes 0 = AttemptOutcome.httpError 401) :
    createConnection outcomes rc = ⟨ConnResult.authFailed, 1, 0⟩ := by
  obtain ⟨r, rfl⟩ : ∃ r, rc = r + 1 := ⟨rc - 1, by omega⟩
  unfold createConnection connLoop
  rw [h0]
  simp

/-- Witness for C6: a 401 on the first attempt with the default retry count. -/
theorem connect_auth_no_retry_witness :
    createConnection (fun _ => AttemptOutcome.httpError 401) 3 =
      ⟨ConnResult.authFailed, 1, 0⟩ :=
  connect_auth_no_retry _ 3 (by norm_num) rfl

theorem pollGo_never_done (isDone : Nat → Bool) (tt : Nat)
    (h : ∀ i, isDone i = false) :
    ∀ fuel i, pollGo isDone tt fuel i = Except.error () := by
  intro fuel
  induction fuel with
  | zero => intro i; rfl
  | succ f ih =>
    intro i
    unfold pollGo
    rw [h i]
    simp only [Bool.false_eq_true, if_false]
    by_cases hc : i > tt
    · rw [if_pos hc]
    · rw [if_neg hc, ih]

/-- C3 counterexample: a Job that completes at once, after which reading the
job statistics raises an HTTP error.  `execute_query` returns the
`http_error` envelope but the Job is never cancelled (cancel count 0),
because the `except` handlers are reached without any `finally` cleanup. -/
theorem job_not_cancelled_on_stats_error :
    (executeQueryCore
      { isDone := fun _ => true
        stats := Except.error (SplunkExc.http 503 "Service Unavailable")
        fetchResults := Except.ok ⟨[], [], []⟩ }
      "search failed_stats" ("-30d", "now") 5).2 = 0 ∧
    (executeQueryCore
      { isDone := fun _ => true
        stats := Except.error (SplunkExc.http 503 "Service Unavailable")
        fetchResults := Except.ok ⟨[], [], []⟩ }
      "search failed_stats" ("-30d", "now") 5).1.error_type =
        some "http_error" := by
  constructor <;> rfl

/-- C3 amended: once the Job exists, it is cancelled exactly once on the
success path and on the timeout path, and is NOT cancelled on the exception
paths that arise while reading job statistics or fetching results (HTTP or
general errors): the cancel count is 1 iff the call returns success or a
timeout error, and 0 otherwise. -/
theorem job_cancelled_iff_success_or_timeout (jb : JobBehavior)
    (query : String) (tr : String × String) (timeout : Nat) :
    (((executeQueryCore jb query tr timeout).1.status = "success" ∨
      (executeQueryCore jb query tr timeout).1.error_type = some "timeout") →
      (executeQueryCore jb query tr timeout).2 = 1) ∧
    (¬ ((executeQueryCore jb query tr timeout).1.status = "success" ∨
      (executeQueryCore jb query tr timeout).1.error_type = some "timeout") →
      (executeQueryCore jb query tr timeout).2 = 0) := by
  unfold executeQueryCore
  cases hp : pollLoop jb.isDone (2 * timeout) with
  | error u =>
    constructor
    · intro _; rfl
    · intro h; exact absurd (Or.inr rfl) h
  | ok n =>
    cases hs : jb.stats with
    | error e =>
      constructor
      · intro h
        rcases h with h | h
        · cases e <;> simp [excEnvelope, errorEnvelope] at h
        · cases e <;> simp [excEnvelope, errorEnvelope] at h
      · intro _; rfl
    | ok st =>
      cases hf : jb.fetchResults with
      | error e =>
        constructor
        · intro h
          rcases h with h | h
          · cases e <;> simp [excEnvelope, errorEnvelope] at h
          · cases e <;> simp [excEnvelope, errorEnvelope] at h
        · intro _; rfl
      | ok rd =>
        constructor
        · intro _; rfl
        · intro h; exact absurd (Or.inl rfl) h

/-- Witness for the amended C3: a job that is done at the first poll with
statistics and results both readable is cancelled exactly once. -/
theorem job_cancelled_iff_success_or_timeout_witness :
    (executeQueryCore
      { isDone := fun _ => true
        stats := Except.ok ⟨1, 1, 1, 0⟩
        fetchResults := Except.ok ⟨[], [], []⟩ }
      "search ok" ("-30d", "now") 5).2 = 1 :=
  (job_cancelled_iff_success_or_timeout _ _ _ _).1 (Or.inl rfl)

/-- C4: a Job that never reports done makes `execute_query` return an error
envelope classified `timeout`, and the Job is cancelled exactly once. -/
theorem timeout_classified_and_cancelled_once (jb : JobBehavior)
    (query : String) (tr : String × String) (timeout : Nat)
    (h : ∀ i, jb.isDone i = false) :
    (executeQueryCore jb query tr timeout).1.status = "error" ∧
    (executeQueryCore jb query tr timeout).1.error_type = some "timeout" ∧
    (executeQueryCore jb query tr timeout).2 = 1 := by
  unfold executeQueryCore pollLoop
  rw [pollGo_never_done jb.isDone (2 * timeout) h]
  exact ⟨rfl, rfl, rfl⟩

/-- Witness for C4: a never-done job with a 5-second timeout. -/
theorem timeout_classified_and_cancelled_once_witness :
    (executeQueryCore
      { isDone := fun _ => false
        stats := Except.ok ⟨0, 0, 0, 0⟩
        fetchResults := Except.ok ⟨[], [], []⟩ }
      "search slow" ("-30d", "now") 5).1.status = "error" ∧
    (executeQueryCore
      { isDone := fun _ => false
        stats := Except.ok ⟨0, 0, 0, 0⟩
        fetchResults := Except.ok ⟨[], [], []⟩ }
      "search slow" ("-30d", "now") 5).1.error_type = some "timeout" ∧
    (executeQueryCore
      { isDone := fun _ => false
        stats := Except.ok ⟨0, 0, 0, 0⟩
        fetchResults := Except.ok ⟨[], [], []⟩ }
      "search slow" ("-30d", "now") 5).2 = 1 :=
  timeout_classified_and_cancelled_once _ _ _ _ (fun _ => rfl)

theorem formatQuerySuccess_pagination (qd : Envelope) (ir : Bool) (ps : Nat) :
    (formatQuerySuccess qd ir ps).pagination =
      calculatePagination qd.results.length ps := by
  simp only [formatQuerySuccess]
  split <;> rfl

theorem formatQuerySuccess_results (qd : Envelope) (ir : Bool) (ps : Nat) :
    (formatQuerySuccess qd ir ps).results =
      if qd.results.length ≤ ps then
        (if ir then some (cleanResults qd.results) else none)
      else none := by
  simp only [formatQuerySuccess]
  split <;> rfl

theorem formatQuerySuccess_preview (qd : Envelope) (ir : Bool) (ps : Nat) :
    (formatQuerySuccess qd ir ps).results_preview =
      if qd.results.length ≤ ps then none
      else some (cleanResults (qd.results.take 100)) := by
  simp only [formatQuerySuccess]
  split <;> rfl

theorem formatQueryResponse_success (qd : Envelope) (ir : Bool) (ps : Nat)
    (hs : qd.status = "success") :
    formatQueryResponse qd ir ps =
      FormattedResponse.ok (formatQuerySuccess qd ir ps) := by
  unfold formatQueryResponse
  rw [if_neg (by rw [hs]; intro h; exact absurd h (by decide))]

/-- C7: for a success envelope and positive page size, `total_results =
page_size` gives `requires_pagination = false`;r `total_results = page_size
+ 1` gives `requires_pagination = true` and `total_pages = 2`; and the
embedded preview never holds more than 100 records, for every page size. -/
theorem pagination_boundary (qd : Envelope) (ir : Bool) (ps : Nat)
    (hs : qd.status = "success") (hps : 0 < ps) :
    formatQueryResponse qd ir ps =
      FormattedResponse.ok (formatQuerySuccess qd ir ps) ∧
    (qd.results.length = ps →
      (formatQuerySuccess qd ir ps).pagination.requires_pagination = false) ∧
    (qd.results.length = ps + 1 →
      (formatQuerySuccess qd ir ps).pagination.requires_pagination = true ∧
      (formatQuerySuccess qd ir ps).pagination.total_pages = 2) ∧
    (∀ l, (formatQuerySuccess qd ir ps).results_preview = some l →
      l.length ≤ 100) := by
  refine ⟨formatQueryResponse_success qd ir ps hs, ?_, ?_, ?_⟩
  · intro h
    rw [formatQuerySuccess_pagination, h]
    have hdiv : (ps + ps - 1) / ps = 1 :=
      Nat.div_eq_of_lt_le (by omega) (by omega)
    show decide ((ps + ps - 1) / ps > 1) = false
    rw [hdiv]
    rfl
  · intro h
    rw [formatQuerySuccess_pagination, h]
    have e1 : ps + 1 + ps - 1 = ps + ps := by omega
    have hdiv : (ps + ps) / ps = 2 :=
      Nat.div_eq_of_lt_le (by omega) (by omega)
    constructor
    · show decide ((ps + 1 + ps - 1) / ps > 1) = true
      rw [e1, hdiv]
      rfl
    · show (ps + 1 + ps - 1) / ps = 2
      rw [e1, hdiv]
  · intro l hl
    rw [formatQuerySuccess_preview] at hl
    by_cases hle : qd.results.length ≤ ps
    · rw [if_pos hle] at hl; exact absurd hl (by simp)
    · rw [if_neg hle] at hl
      have : l = cleanResults (qd.results.take 100) := by
        exact Option.some_injective _ hl.symm
      subst this
      unfold cleanResults
      rw [List.length_map, List.length_take]
      omega

/-- Witness for C7: a success envelope with exactly `page_size` results does
not require pagination. -/
theorem pagination_boundary_witness :
    (formatQuerySuccess
      { status := "success", query := "search x", time_range := some ("-1h", "now")
        statistics := some ⟨2, 2, 2, 0⟩
        results := [[("host", Value.str "h1")], [("host", Value.str "h2")]]
        fields := ["host"], messages := [], error := none, error_type := none }
      true 2).pagination.requires_pagination = false :=
  (pagination_boundary _ true 2 rfl (by norm_num)).2.1 rfl

/-- C8 counterexample: a success envelope with one result and page size 10,
formatted with `include_raw = false` (the `include_raw_events` configuration
switch the caller passes), embeds no `results` key at all — the claim's
unconditional embedding fails. -/
theorem results_not_embedded_without_include_raw :
    formatQueryResponse
      { status := "success", query := "search y", time_range := some ("-1h", "now")
        statistics := some ⟨1, 1, 1, 0⟩
        results := [[("host", Value.str "h1")]]
        fields := ["host"], messages := [], error := none, error_type := none }
      false 10 =
      FormattedResponse.ok (formatQuerySuccess
        { status := "success", query := "search y", time_range := some ("-1h", "now")
          statistics := some ⟨1, 1, 1, 0⟩
          results := [[("host", Value.str "h1")]]
          fields := ["host"], messages := [], error := none, error_type := none }
        false 10) ∧
    (formatQuerySuccess
      { status := "success", query := "search y", time_range := some ("-1h", "now")
        statistics := some ⟨1, 1, 1, 0⟩
        results := [[("host", Value.str "h1")]]
        fields := ["host"], messages := [], error := none, error_type := none }
      false 10).results = none := by
  constructor <;> rfl

/-- C8 amended: for a success envelope with `total_results ≤ page_size` AND
`include_raw = true` (the source's default), the report embeds the full
cleaned result set verbatim under `results`; with `include_raw = false`
nothing is embedded. -/
theorem full_results_embedded_when_include_raw (qd : Envelope) (ps : Nat)
    (hs : qd.status = "success") (hle : qd.results.length ≤ ps) :
    formatQueryResponse qd true ps =
      FormattedResponse.ok (formatQuerySuccess qd true ps) ∧
    (formatQuerySuccess qd true ps).results =
      some (cleanResults qd.results) := by
  refine ⟨formatQueryResponse_success qd true ps hs, ?_⟩
  rw [formatQuerySuccess_results, if_pos hle, if_pos rfl]

/-- Witness for the amended C8: one record, page size 10, raw included. -/
theorem full_results_embedded_when_include_raw_witness :
    (formatQuerySuccess
      { status := "success", query := "search z", time_range := some ("-1h", "now")
        statistics := some ⟨1, 1, 1, 0⟩
        results := [[("host", Value.str "h1")]]
        fields := ["host"], messages := [], error := none, error_type := none }
      true 10).results =
      some (cleanResults [[("host", Value.str "h1")]]) :=
  (full_results_embedded_when_include_raw _ 10 rfl (by norm_num)).2

/-- C10: `get_indexes` and `get_sourcetypes` never raise.  On a connection
failure, a listing failure, or a non-success query envelope each returns the
empty list (indistinguishable from a server with no indexes/sourcetypes);
every value `get_sourcetypes` returns is truthy, so in particular the
empty-string sourcetype values are filtered out. -/
theorem listing_failures_yield_empty (conn : Except SplunkExc Unit)
    (il : Except SplunkExc (List String)) (jb : JobBehavior) (t : Nat)
    (idx : Option String) :
    (conn.isOk = false ∨ il.isOk = false → getIndexes conn il = []) ∧
    (conn.isOk = false ∨
      (executeQuery conn jb (sourcetypesQuery idx) ("-7d", "now") t).1.status ≠
        "success" →
      getSourcetypes conn jb t idx = []) ∧
    (∀ v ∈ getSourcetypes conn jb t idx, pyTruthy v = true) ∧
    Value.str "" ∉ getSourcetypes conn jb t idx := by
  have hmem : ∀ v ∈ getSourcetypes conn jb t idx, pyTruthy v = true := by
    intro v hv
    unfold getSourcetypes at hv
    cases conn with
    | error e => exact absurd hv (by simp)
    | ok u =>
      simp only [] at hv
      by_cases hres : ((executeQuery (Except.ok u) jb (sourcetypesQuery idx)
          ("-7d", "now") t).1).status = "success"
      · rw [if_pos hres] at hv
        exact (List.mem_filter.mp hv).2
      · rw [if_neg hres] at hv
        exact absurd hv (by simp)
  refine ⟨?_, ?_, hmem, ?_⟩
  · intro h
    cases conn with
    | error e => rfl
    | ok u =>
      cases il with
      | error e => rfl
      | ok l =>
        rcases h with h | h <;> simp [Except.isOk, Except.toBool] at h
  · intro h
    cases conn with
    | error e => rfl
    | ok u =>
      rcases h with h | h
      · simp [Except.isOk, Except.toBool] at h
      · unfold getSourcetypes
        simp only []
        rw [if_neg h]
  · intro hv
    have := hmem _ hv
    simp [pyTruthy] at this

/-- Witness for C10: a failed connection yields empty listings. -/
theorem listing_failures_yield_empty_witness :
    getIndexes (Except.error (SplunkExc.general "boom")) (Except.ok ["main"]) = [] :=
  (listing_failures_yield_empty (Except.error (SplunkExc.general "boom"))
    (Except.ok ["main"])
    { isDone := fun _ => true
      stats := Except.ok ⟨0, 0, 0, 0⟩
      fetchResults := Except.ok ⟨[], [], []⟩ } 5 none).1 (Or.inl rfl)

/-- C9 counterexample: two records with the integer value 1 in field `a`.
Python's `value not in sample_values` compares the raw `int` against the
stringified samples and never matches, so `"1"` is collected twice —
`sample_values` is not a list of distinct values. -/
theorem sample_values_not_distinct_for_int_values :
    assocGet (generateFieldSummary
      [[("a", Value.int 1)], [("a", Value.int 1)]]) "a" =
      some ⟨["1", "1"], 1, [("1", 2)]⟩ ∧
    ¬ (["1", "1"] : List String).Nodup := by
  constructor
  · rfl
  · decide

theorem assocGet_assocSet {β : Type} (l : List (String × β)) (k k' : String)
    (v : β) :
    assocGet (assocSet l k v) k' = if k' = k then some v else assocGet l k' := by
  induction l with
  | nil =>
    simp only [assocSet, assocGet]
    by_cases h : k = k'
    · rw [if_pos h, if_pos h.symm]
    · rw [if_neg h, if_neg (show ¬ k' = k from fun hh => h hh.symm)]
  | cons p rest ih =>
    obtain ⟨k0, v0⟩ := p
    simp only [assocSet]
    by_cases h : k0 = k
    · rw [if_pos h]
      subst h
      simp only [assocGet]
      by_cases h' : k0 = k'
      · rw [if_pos h', if_pos h'.symm]
      · rw [if_neg h', if_neg (show ¬ k' = k0 from fun hh => h' hh.symm),
          if_neg h']
    · rw [if_neg h]
      simp only [assocGet]
      by_cases h' : k0 = k'
      · rw [if_pos h', if_pos h',
          if_neg (show ¬ k' = k from fun hh => h (h'.trans hh))]
      · rw [if_neg h', if_neg h', ih]

theorem assocGet_append {β : Type} (l1 l2 : List (String × β)) (k : String) :
    assocGet (l1 ++ l2) k =
      match assocGet l1 k with
      | some v => some v
      | none => assocGet l2 k := by
  induction l1 with
  | nil => rfl
  | cons p rest ih =>
    obtain ⟨k0, v0⟩ := p
    by_cases h : k0 = k
    · simp [assocGet, h]
    · simp [assocGet, h, ih]

theorem assocGet_map {β γ : Type} (g : β → γ) (l : List (String × β))
    (k : String) :
    assocGet (l.map (fun p => (p.1, g p.2))) k = (assocGet l k).map g := by
  induction l with
  | nil => rfl
  | cons p rest ih =>
    obtain ⟨k0, v0⟩ := p
    by_cases h : k0 = k
    · simp [assocGet, h]
    · simp [assocGet, h, ih]

theorem assocGet_summaryStep (fs : List (String × FieldAcc))
    (p : String × Value) (f : String) :
    assocGet (summaryStep fs p) f =
      if isInternalField p.1 = true then assocGet fs f
      else if p.1 = f then
        some (fieldStep ((assocGet fs p.1).getD emptyFieldAcc) p.2)
      else assocGet fs f := by
  unfold summaryStep
  by_cases hi : isInternalField p.1 = true
  · rw [if_pos hi, if_pos hi]
  · rw [if_neg hi, if_neg hi]
    cases hg : assocGet fs p.1 with
    | some d =>
      rw [assocGet_assocSet]
      by_cases hf : p.1 = f
      · rw [if_pos hf.symm, if_pos hf]
        rfl
      · rw [if_neg (show ¬ f = p.1 from fun hh => hf hh.symm), if_neg hf]
    | none =>
      rw [assocGet_append]
      by_cases hf : p.1 = f
      · subst hf
        rw [hg]
        simp [assocGet]
      · rw [if_neg hf]
        cases hgf : assocGet fs f with
        | some w => rfl
        | none =>
          show assocGet [(p.1, fieldStep emptyFieldAcc p.2)] f = none
          simp only [assocGet]
          rw [if_neg hf]

theorem applyAll_cons (d : Option FieldAcc) (v : Value) (vs : List Value) :
    applyAll d (v :: vs) =
      applyAll (some (fieldStep (d.getD emptyFieldAcc) v)) vs := by
  cases vs with
  | nil => rfl
  | cons w ws => rfl

theorem pairStream_cons_skip (f : String) (p : String × Value)
    (ps : List (String × Value))
    (h : (!(isInternalField p.1) && (p.1 == f)) = false) :
    pairStream f (p :: ps) = pairStream f ps := by
  unfold pairStream
  rw [List.filter_cons, if_neg (by rw [h]; exact Bool.false_ne_true)]

theorem pairStream_cons_keep (f : String) (p : String × Value)
    (ps : List (String × Value))
    (h : (!(isInternalField p.1) && (p.1 == f)) = true) :
    pairStream f (p :: ps) = p.2 :: pairStream f ps := by
  unfold pairStream
  rw [List.filter_cons, if_pos h, List.map_cons]

theorem assocGet_foldl_summaryStep (f : String) :
    ∀ (ps : List (String × Value)) (fs : List (String × FieldAcc)),
      assocGet (ps.foldl summaryStep fs) f =
        applyAll (assocGet fs f) (pairStream f ps) := by
  intro ps
  induction ps with
  | nil => intro fs; rfl
  | cons p rest ih =>
    intro fs
    rw [List.foldl_cons, ih (summaryStep fs p), assocGet_summaryStep]
    by_cases hi : isInternalField p.1 = true
    · rw [if_pos hi, pairStream_cons_skip f p rest (by simp [hi])]
    · rw [if_neg hi]
      have hif : isInternalField p.1 = false := by
        cases hb : isInternalField p.1
        · rfl
        · exact absurd hb hi
      by_cases hf : p.1 = f
      · rw [if_pos hf,
          pairStream_cons_keep f p rest (by rw [hf] at hif; simp [hif, hf]),
          applyAll_cons, hf]
      · rw [if_neg hf,
          pairStream_cons_skip f p rest (by simp [hf])]

theorem foldl_records_eq_flat (results : List Record)
    (fs : List (String × FieldAcc)) :
    results.foldl (fun b r => r.foldl summaryStep b) fs =
      (results.flatMap (fun r => r)).foldl summaryStep fs := by
  induction results generalizing fs with
  | nil => rfl
  | cons r rest ih =>
    rw [List.foldl_cons, List.flatMap_cons, List.foldl_append, ih]

theorem mem_insertDesc (x y : String × Nat) (l : List (String × Nat)) :
    y ∈ insertDesc x l ↔ y = x ∨ y ∈ l := by
  induction l with
  | nil => simp [insertDesc]
  | cons z zs ih =>
    unfold insertDesc
    by_cases h : z.2 < x.2
    · rw [if_pos h]
      simp only [List.mem_cons]
    · rw [if_neg h]
      simp only [List.mem_cons, ih]
      tauto

theorem pairwise_insertDesc (x : String × Nat) (l : List (String × Nat))
    (h : l.Pairwise (fun a b => b.2 ≤ a.2)) :
    (insertDesc x l).Pairwise (fun a b => b.2 ≤ a.2) := by
  induction l with
  | nil => simp [insertDesc]
  | cons z zs ih =>
    rw [List.pairwise_cons] at h
    obtain ⟨hz, hzs⟩ := h
    unfold insertDesc
    by_cases hc : z.2 < x.2
    · rw [if_pos hc, List.pairwise_cons]
      constructor
      · intro w hw
        rcases List.mem_cons.mp hw with rfl | hw'
        · omega
        · have := hz w hw'; omega
      · exact List.pairwise_cons.mpr ⟨hz, hzs⟩
    · rw [if_neg hc, List.pairwise_cons]
      constructor
      · intro w hw
        rcases (mem_insertDesc x w zs).mp hw with rfl | hw'
        · omega
        · exact hz w hw'
      · exact ih hzs

theorem pairwise_sortByCountDesc (c : List (String × Nat)) :
    (sortByCountDesc c).Pairwise (fun a b => b.2 ≤ a.2) := by
  unfold sortByCountDesc
  suffices h : ∀ acc : List (String × Nat),
      acc.Pairwise (fun a b => b.2 ≤ a.2) →
      (c.foldl (fun acc x => insertDesc x acc) acc).Pairwise
        (fun a b => b.2 ≤ a.2) from h [] (by simp)
  induction c with
  | nil => intro acc h; exact h
  | cons x xs ih =>
    intro acc h
    exact ih _ (pairwise_insertDesc x acc h)

theorem mostCommon_pairwise (n : Nat) (c : List (String × Nat)) :
    (mostCommon n c).Pairwise (fun a b => b.2 ≤ a.2) :=
  (pairwise_sortByCountDesc c).sublist (List.take_sublist n _)

theorem mostCommon_length_le (n : Nat) (c : List (String × Nat)) :
    (mostCommon n c).length ≤ n := by
  unfold mostCommon
  rw [List.length_take]
  omega

theorem firstSeenDistinct_step (l : List String) (s : String) :
    firstSeenDistinct (l ++ [s]) =
      if s ∈ firstSeenDistinct l then firstSeenDistinct l
      else firstSeenDistinct l ++ [s] := by
  unfold firstSeenDistinct
  rw [List.foldl_append]
  rfl

theorem firstSeenDistinct_nodup (l : List String) :
    (firstSeenDistinct l).Nodup := by
  unfold firstSeenDistinct
  suffices h : ∀ acc : List String, acc.Nodup →
      (l.foldl (fun acc s => if s ∈ acc then acc else acc ++ [s]) acc).Nodup
    from h [] (by simp)
  induction l with
  | nil => intro acc h; exact h
  | cons s ss ih =>
    intro acc h
    rw [List.foldl_cons]
    by_cases hm : s ∈ acc
    · rw [if_pos hm]; exact ih acc h
    · rw [if_neg hm]
      refine ih _ ?_
      rw [List.nodup_append]
      refine ⟨h, by simp, ?_⟩
      intro a ha hb
      rw [List.mem_singleton] at hb
      subst hb
      exact hm ha

theorem foldl_fieldStep_samples :
    ∀ (vs : List Value), (∀ v ∈ vs, isStrValue v = true) →
      ∀ (pre : List String) (d : FieldAcc),
        d.sample_values = (firstSeenDistinct pre).take 5 →
        (vs.foldl fieldStep d).sample_values =
          (firstSeenDistinct (pre ++ vs.map pyStr)).take 5 := by
  intro vs
  induction vs with
  | nil =>
    intro _ pre d hd
    simpa using hd
  | cons v vt ih =>
    intro hstr pre d hd
    obtain ⟨s, rfl⟩ : ∃ s, v = Value.str s := by
      have hv := hstr v (List.mem_cons_self v vt)
      cases v with
      | str s => exact ⟨s, rfl⟩
      | int n => simp [isStrValue] at hv
    rw [List.foldl_cons,
      show (Value.str s :: vt).map pyStr = s :: vt.map pyStr from rfl,
      show pre ++ s :: vt.map pyStr = (pre ++ [s]) ++ vt.map pyStr by simp]
    apply ih (fun w hw => hstr w (List.mem_cons_of_mem _ hw)) (pre ++ [s])
    rw [firstSeenDistinct_step]
    unfold fieldStep
    simp only []
    by_cases h5 : d.sample_values.length < 5
    · have hlenA : (firstSeenDistinct pre).length < 5 := by
        have := congrArg List.length hd
        rw [List.length_take] at this
        omega
      have htake : (firstSeenDistinct pre).take 5 = firstSeenDistinct pre :=
        List.take_of_length_le (by omega)
      have hdA : d.sample_values = firstSeenDistinct pre := by rw [hd, htake]
      by_cases hm : s ∈ firstSeenDistinct pre
      · have hmem : pyMemStr (Value.str s) d.sample_values = true := by
          unfold pyMemStr
          rw [hdA]
          simpa using hm
        rw [if_neg (by rw [hmem]; intro hc; exact absurd hc.1 (by decide)),
          if_pos hm, htake]
        exact hdA
      · have hmem : pyMemStr (Value.str s) d.sample_values = false := by
          unfold pyMemStr
          rw [hdA]
          simpa using hm
        rw [if_pos ⟨hmem, h5⟩, if_neg hm, hdA]
        have hlen : ((firstSeenDistinct pre) ++ [s]).length ≤ 5 := by
          rw [List.length_append]
          simp
          omega
        rw [List.take_of_length_le hlen]
        rfl
    · have hAlen : 5 ≤ (firstSeenDistinct pre).length := by
        have := congrArg List.length hd
        rw [List.length_take] at this
        omega
      rw [if_neg (fun hc => absurd hc.2 h5)]
      by_cases hm : s ∈ firstSeenDistinct pre
      · rw [if_pos hm]
        exact hd
      · rw [if_neg hm, List.take_append_of_le_length hAlen]
        exact hd

theorem take_min_100 {α : Type} (l : List α) :
    l.take (min 100 l.length) = l.take 100 := by
  rw [List.take_eq_take]
  omega

theorem generateFieldSummary_take100 (results : List Record) :
    generateFieldSummary results = generateFieldSummary (results.take 100) := by
  unfold generateFieldSummary
  cases results with
  | nil => rfl
  | cons r rest =>
    rw [if_neg (by simp), if_neg (by simp [List.isEmpty_iff])]
    rw [take_min_100 (r :: rest), take_min_100 ((r :: rest).take 100),
      List.take_take, Nat.min_self]

/-- C9 amended: the field summary is deterministic and, when every field
value is a JSON string (as in Splunk's JSON result payloads), `sample_values`
is exactly the first-seen-distinct stringified values capped at 5 — distinct,
in first-seen order; only the first 100 records are ever examined; and
`top_values` holds at most 5 entries sorted descending by count.  (For
non-string values the cap and the first-100 bound still hold, but Python's
membership test compares the raw value against stringified samples and never
matches, so repeated non-string values are re-collected and distinctness
fails — see the counterexample.) -/
theorem field_summary_deterministic (results : List Record)
    (hstr : ∀ r ∈ results, ∀ p ∈ r, isStrValue p.2 = true) :
    generateFieldSummary results = generateFieldSummary (results.take 100) ∧
    ∀ f e, assocGet (generateFieldSummary results) f = some e →
      e.sample_values =
        (firstSeenDistinct ((fieldValueStream f results).map pyStr)).take 5 ∧
      e.sample_values.Nodup ∧
      e.sample_values.length ≤ 5 ∧
      e.top_values.length ≤ 5 ∧
      e.top_values.Pairwise (fun a b => b.2 ≤ a.2) := by
  refine ⟨generateFieldSummary_take100 results, ?_⟩
  intro f e he
  unfold generateFieldSummary at he
  by_cases hni : results.isEmpty = true
  · rw [if_pos hni] at he
    exact absurd he (by simp [assocGet])
  · rw [if_neg hni] at he
    rw [foldl_records_eq_flat, assocGet_map, assocGet_foldl_summaryStep] at he
    have hmap : ∀ w ∈ pairStream f
        ((results.take (min 100 results.length)).flatMap (fun r => r)),
        isStrValue w = true := by
      intro w hw
      unfold pairStream at hw
      obtain ⟨p, hp, hpw⟩ := List.mem_map.mp hw
      have hp1 := (List.mem_filter.mp hp).1
      obtain ⟨r, hr, hpr⟩ := List.mem_flatMap.mp hp1
      rw [← hpw]
      exact hstr r (List.mem_of_mem_take hr) p hpr
    rcases hs' : pairStream f
        ((results.take (min 100 results.length)).flatMap (fun r => r)) with
      _ | ⟨v, vt⟩
    · rw [hs'] at he
      simp [assocGet, applyAll] at he
    · rw [hs'] at he
      rw [hs'] at hmap
      simp only [assocGet, applyAll, Option.getD_none, Option.map_some',
        Option.some.injEq] at he
      have hsv := foldl_fieldStep_samples (v :: vt) hmap [] emptyFieldAcc rfl
      rw [List.nil_append] at hsv
      have hfvs : fieldValueStream f results = v :: vt := by
        rw [show fieldValueStream f results = pairStream f
          ((results.take (min 100 results.length)).flatMap (fun r => r)) from rfl,
          hs']
      subst he
      refine ⟨?_, ?_, ?_, ?_, ?_⟩
      · show ((v :: vt).foldl fieldStep emptyFieldAcc).sample_values = _
        rw [hsv, hfvs]
      · show ((v :: vt).foldl fieldStep emptyFieldAcc).sample_values.Nodup
        rw [hsv]
        exact (List.take_sublist 5 _).nodup (firstSeenDistinct_nodup _)
      · show ((v :: vt).foldl fieldStep emptyFieldAcc).sample_values.length ≤ 5
        rw [hsv, List.length_take]
        omega
      · exact mostCommon_length_le 5 _
      · exact mostCommon_pairwise 5 _

/-- Witness for the amended C9: three string-valued records. -/
theorem field_summary_deterministic_witness :
    generateFieldSummary
      [[("a", Value.str "x")], [("a", Value.str "y")], [("a", Value.str "x")]] =
      generateFieldSummary
        (([[("a", Value.str "x")], [("a", Value.str "y")],
          [("a", Value.str "x")]] : List Record).take 100) :=
  (field_summary_deterministic _ (by decide)).1
